import Mathlib

/-!
# Verification of the `bufcli` climatology builder

A shallow embedding of the parts of the `bufcli` repository that the checked
claims are about, together with theorems settling each claim.

Embedded components:

* `src/src/distributions.rs` — `CumulativeDistribution` (NaN removal, ascending
  sort, percentile lookups, `deciles`, `percentile_of_value`) and the
  `Deciles` binary blob serialization.
* `src/src/climo_db/build_cdf.rs` — the degenerate-value remapping in
  `load_all_data` and the circular day-of-year window `make_window_func`.
* `src/src/bin/bufcli/builder/data.rs` — the ingest pipeline stages (load,
  parse, cli-stats, location-stats) as message-list transformers.

Modelling conventions:

* An `f64` value is modelled up to the order induced by `partial_cmp`:
  `F64 := Option Fnn` where `none` is NaN and `Fnn := WithBot (WithTop ℚ)`
  places `-inf` (`⊥`) below every finite value and `+inf` (`⊤`) above.
  The code under verification never does float arithmetic — it only removes
  NaNs, compares, sorts and selects — so this ordered model is faithful;
  distinct NaN payloads and `-0.0` versus `0.0` are collapsed, exactly as
  `partial_cmp` treats them.
* For the serialization claim the 11 doubles are modelled by their raw 64-bit
  patterns (`Nat`s below `2^64`), because `bincode` writes each `f64` as its
  IEEE-754 bit pattern in little-endian order.
* `usize` arithmetic follows release-build semantics: subtraction and
  multiplication wrap modulo `2^64`, division by zero and out-of-bounds
  indexing panic.  A panic is modelled as `Except.error`; overflow-checked
  builds would panic earlier at the wrapping subtraction, so "panics" agrees
  between the two build modes everywhere it matters below.
-/

namespace Bufcli

/-- Modulus of `usize` arithmetic (64-bit target). -/
def U64MOD : ℕ := 2 ^ 64

/-- A non-NaN `f64` value, ordered as `partial_cmp` orders it:
`⊥` is `-inf`, `⊤` is `+inf`, and finite values sit in between. -/
abbrev Fnn : Type := WithBot (WithTop ℚ)

/-- An arbitrary `f64` value; `none` is NaN. -/
abbrev F64 : Type := Option Fnn

/-- A finite double. -/
def fv (q : ℚ) : Fnn := ((q : WithTop ℚ) : Fnn)

/-- `+inf`. -/
def posInf : Fnn := ⊤

/-- `-inf`. -/
def negInf : Fnn := ⊥

/-- `f64::is_nan`. -/
def F64.is_nan : F64 → Bool
  | none => true
  | some _ => false

/-- The `<` of `f64` (`false` whenever either side is NaN). -/
def F64.lt (a b : F64) : Bool :=
  match a, b with
  | some x, some y => decide (x < y)
  | _, _ => false

/-- `CumulativeDistribution` from `src/src/distributions.rs`:
a vector of non-NaN values sorted ascending. -/
structure CumulativeDistribution where
  sorted_values : List Fnn
  deriving DecidableEq, Repr

/-- Pre-calculated deciles (`struct Deciles` in `src/src/distributions.rs`),
here in the ordered-value model. -/
structure Deciles where
  deciles : Fin 11 → Fnn
  deriving DecidableEq

/-- `CumulativeDistribution::new`: drop the NaNs (`retain(!is_nan)` is
`filterMap id` on `Option`-modelled floats) and sort ascending.  The Rust
code uses an unstable comparison sort; `insertionSort` by the same total
order produces the same sorted value sequence. -/
def CumulativeDistribution.new (data : List F64) : CumulativeDistribution :=
  ⟨List.insertionSort (· ≤ ·) (data.filterMap id)⟩

/-- `CumulativeDistribution::value_at_percentile`:
`index = pct * (len - 1) / 100` in `usize` arithmetic (release semantics:
`len - 1` wraps when `len = 0`), then `sorted_values[index]`, whose
out-of-bounds panic is the `Except.error` branch. -/
def CumulativeDistribution.value_at_percentile (cd : CumulativeDistribution)
    (pct : ℕ) : Except String Fnn :=
  let index : ℕ := pct * ((cd.sorted_values.length + U64MOD - 1) % U64MOD) % U64MOD / 100
  match cd.sorted_values.get? index with
  | some v => Except.ok v
  | none => Except.error "index out of bounds"

/-- `CumulativeDistribution::deciles`: the eleven lookups at percentiles
0, 10, ..., 100, in source order. -/
def CumulativeDistribution.deciles (cd : CumulativeDistribution) :
    Except String Deciles := do
  let d0 ← cd.value_at_percentile 0
  let d1 ← cd.value_at_percentile 10
  let d2 ← cd.value_at_percentile 20
  let d3 ← cd.value_at_percentile 30
  let d4 ← cd.value_at_percentile 40
  let d5 ← cd.value_at_percentile 50
  let d6 ← cd.value_at_percentile 60
  let d7 ← cd.value_at_percentile 70
  let d8 ← cd.value_at_percentile 80
  let d9 ← cd.value_at_percentile 90
  let d10 ← cd.value_at_percentile 100
  return ⟨![d0, d1, d2, d3, d4, d5, d6, d7, d8, d9, d10]⟩

/-- The loop of Rust `slice::binary_search_by` (probe `partial_cmp` value,
halve the window), with the loop's iteration count bounded by `fuel`; the
caller passes the slice length as fuel, which always suffices because the
window shrinks by at least one element per iteration.  `Sum.inl` is `Ok`
(exact hit), `Sum.inr` is `Err` (insertion point). -/
def binarySearchLoop (l : List Fnn) (v : Fnn) : ℕ → ℕ → ℕ → Sum ℕ ℕ
  | 0, left, _ => Sum.inr left
  | fuel + 1, left, right =>
    if left < right then
      let mid := left + (right - left) / 2
      let probe := l.getD mid negInf
      if probe < v then binarySearchLoop l v fuel (mid + 1) right
      else if v < probe then binarySearchLoop l v fuel left mid
      else Sum.inl mid
    else Sum.inr left

/-- `CumulativeDistribution::percentile_of_value`: assert the query is not
NaN, binary-search for it, collapse `Ok`/`Err` to the index
(`unwrap_or_else(|err| err)`), then compute
`(index * 100) / (len - 1)` in `usize` arithmetic and convert to `u32`.
Panics (`Except.error`) model the NaN assertion, the division by zero when
`len = 1` and the failing `try_into` conversion. -/
def CumulativeDistribution.percentile_of_value (cd : CumulativeDistribution)
    (value : F64) : Except String ℕ :=
  match value with
  | none => Except.error "assertion failed: !value.is_nan()"
  | some v =>
    let n := cd.sorted_values.length
    let index : ℕ :=
      match binarySearchLoop cd.sorted_values v n 0 n with
      | Sum.inl i => i
      | Sum.inr i => i
    let divisor := (n + U64MOD - 1) % U64MOD
    if divisor = 0 then Except.error "attempt to divide by zero"
    else
      let pct := index * 100 % U64MOD / divisor
      if pct < 2 ^ 32 then Except.ok pct
      else Except.error "u32 conversion failed"

/-- Little-endian byte decomposition (`f64::to_le_bytes` on the raw bit
pattern): `k` bytes, least significant first. -/
def nat_to_le_bytes : ℕ → ℕ → List ℕ
  | 0, _ => []
  | k + 1, x => x % 256 :: nat_to_le_bytes k (x / 256)

/-- Little-endian byte recomposition (`f64::from_le_bytes` on the raw bit
pattern). -/
def nat_from_le_bytes (l : List ℕ) : ℕ :=
  l.foldr (fun b acc => b + 256 * acc) 0

/-- `Deciles::as_bytes`: `bincode::serialize` of `struct Deciles([f64; 11])`
writes the struct transparently and the fixed-size array without a length
prefix, so the blob is the 11 doubles' bit patterns, each as 8 little-endian
bytes.  The argument is the bit-pattern view of the 11 doubles. -/
def as_bytes (bits : List ℕ) : List ℕ :=
  bits.flatMap (nat_to_le_bytes 8)

/-- Read `k` consecutive little-endian `u64`s (raw doubles) from a byte
stream, failing like `bincode::deserialize_from` when the reader runs dry. -/
def read_u64s : ℕ → List ℕ → Except String (List ℕ)
  | 0, _ => Except.ok []
  | k + 1, bytes =>
    if bytes.length < 8 then Except.error "unexpected end of input"
    else
      match read_u64s k (bytes.drop 8) with
      | Except.ok rest => Except.ok (nat_from_le_bytes (bytes.take 8) :: rest)
      | Except.error e => Except.error e

/-- `Deciles::from_reader`: `bincode::deserialize_from` reads the 11 raw
doubles back. -/
def from_reader (bytes : List ℕ) : Except String (List ℕ) :=
  read_u64s 11 bytes

/-- Month lengths of a non-leap year (`create_deciles` anchors every
ordinal to the non-leap year 2019). -/
def month_lengths : List ℕ := [31, 28, 31, 30, 31, 30, 31, 31, 30, 31, 30, 31]

/-- Convert a 1-based ordinal day within a non-leap year to `(month, day)`,
as chrono's `NaiveDate` getters expose it. -/
def monthDayAux : ℕ → ℕ → List ℕ → ℕ × ℕ
  | m, d, [] => (m, d)
  | m, d, len :: rest => if d ≤ len then (m, d) else monthDayAux (m + 1) (d - len) rest

def monthDay (ordinal : ℕ) : ℕ × ℕ :=
  monthDayAux 1 ordinal month_lengths

/-- `target_date - Duration::days(7)` for a target given as a 1-based
ordinal of non-leap 2019; ordinals 1–7 land in December of non-leap 2018
(`365 + (o - 7) = o + 358`). -/
def ordMinus7 (o : ℕ) : ℕ := if 8 ≤ o then o - 7 else o + 358

/-- `target_date + Duration::days(7)`; ordinals above 358 land in January
of the next year (month/day unaffected by that year's leap status). -/
def ordPlus7 (o : ℕ) : ℕ := if o + 7 ≤ 365 then o + 7 else o + 7 - 365

/-- `make_window_func` from `src/src/climo_db/build_cdf.rs`: the month/day
interval test with its three cases (increasing months, equal months, and
wrap around the year end).  Dates are `(month, day)` pairs. -/
def make_window_func (start e : ℕ × ℕ) (vt : ℕ × ℕ) : Bool :=
  let start_month := start.1
  let start_day := start.2
  let end_month := e.1
  let end_day := e.2
  let vt_month := vt.1
  let vt_day := vt.2
  if start_month < end_month then
    (vt_month == start_month && decide (start_day ≤ vt_day))
      || (vt_month == end_month && decide (vt_day ≤ end_day))
      || (decide (start_month < vt_month) && decide (vt_month < end_month))
  else if start_month == end_month then
    decide (start_day ≤ vt_day) && decide (vt_day ≤ end_day)
  else
    (vt_month == start_month && decide (start_day ≤ vt_day))
      || (vt_month == end_month && decide (vt_day ≤ end_day))
      || (decide (start_month < vt_month) || decide (vt_month < end_month))

/-- The window predicate `create_deciles` builds for a target day-of-year:
`make_window_func(target - 7 days, target + 7 days)` applied to the
month/day of a valid time. -/
def in_window (day_of_year : ℕ) (vt : ℕ × ℕ) : Bool :=
  make_window_func (monthDay (ordMinus7 day_of_year)) (monthDay (ordPlus7 day_of_year)) vt

/-- One row of `AllData` in `src/src/climo_db/build_cdf.rs`:
`(valid time, hdw, blow up dt, blow up meters, dcape)`.  The valid time is
an opaque timestamp; the four statistics are doubles. -/
structure DataRow where
  vt : ℕ
  hdw : F64
  dt : F64
  blow_up_meters : F64
  dcape : F64
  deriving DecidableEq, Inhabited

/-- The remapping step of `ClimoCDFBuilderInterface::load_all_data`
(the "THIS STEP IS IMPORTANT" map): rows whose blow-up height is below
1000 m get `dt = +inf` and `blow_up_meters = -inf`. -/
def load_remap (rows : List DataRow) : List DataRow :=
  rows.map fun r =>
    if F64.lt r.blow_up_meters (some (fv 1000)) then
      { r with dt := some posInf, blow_up_meters := some negInf }
    else r

/-- A forecast model; only the `hours_between_runs` constant matters to the
pipeline (the model set itself is an external collaborator). -/
structure Model where
  hours_between_runs : ℤ
  deriving DecidableEq

/-- A decoded sounding, at the interface the pipeline consumes:
`lead_time()`, `valid_time()`, `station_info().location()` and
`station_info().elevation()`. -/
structure Sounding where
  lead_time : Option ℤ
  valid_time : Option ℕ
  station_location : Option (ℚ × ℚ)
  station_elevation : Option ℚ
  deriving DecidableEq

/-- `StatsRecord` from the climo stats store: either one derived-statistics
row (the derivation formulas are opaque collaborators, so the record keeps
the sounding it was derived from) or one location row. -/
inductive StatsRecord
  | cliData (site : ℕ) (model : Model) (valid_time : ℕ) (snd : Sounding)
  | location (site : ℕ) (model : Model) (valid_time : ℕ) (lat lon : ℚ) (elev_m : ℚ)
  deriving DecidableEq

/-- `StatsRecord::create_cli_data`: always succeeds, packaging the derived
(opaque) statistics for the sounding. -/
def create_cli_data (site : ℕ) (model : Model) (valid_time : ℕ)
    (snd : Sounding) : StatsRecord :=
  StatsRecord.cliData site model valid_time snd

/-- `StatsRecord::create_location_data`: succeeds iff the sounding carries
both a location and an elevation; on failure it returns the site
(`Result<Self, SiteInfo>`). -/
def create_location_data (site : ℕ) (model : Model) (valid_time : ℕ)
    (snd : Sounding) : Except ℕ StatsRecord :=
  match snd.station_location, snd.station_elevation with
  | some (lat, lon), some elev_m =>
      Except.ok (StatsRecord.location site model valid_time lat lon elev_m)
  | _, _ => Except.error site

/-- `DataPopulateMsg` from `src/src/bin/bufcli/builder/data.rs`.  Sites and
init/valid times are opaque identifiers; `data` is the opaque raw payload a
`retrieve` oracle produced. -/
inductive DataPopulateMsg
  | load (num : ℕ) (site : ℕ) (model : Model) (init_time : ℕ)
  | parse (num : ℕ) (site : ℕ) (model : Model) (init_time : ℕ) (data : ℕ)
  | cliData (num : ℕ) (site : ℕ) (model : Model) (valid_time : ℕ) (snd : Sounding)
  | location (num : ℕ) (site : ℕ) (model : Model) (valid_time : ℕ) (snd : Sounding)
  | populateCompleted (num : ℕ) (site : ℕ) (model : Model)
  | dataError (num : ℕ) (site : ℕ) (model : Model) (valid_time : ℕ) (msg : String)
  deriving DecidableEq

/-- The load thread body: `Load` becomes `Parse` on successful retrieval and
`DataError` on failure; every other message passes through unchanged.  The
raw-archive collaborator is the `retrieve` oracle. -/
def load_stage (retrieve : ℕ → Model → ℕ → Except String ℕ) :
    DataPopulateMsg → DataPopulateMsg
  | .load num site model init_time =>
    match retrieve site model init_time with
    | Except.ok data => .parse num site model init_time data
    | Except.error e => .dataError num site model init_time e
  | m => m

/-- The retention test of the parser thread:
`lead_time().into_option().map(|lt| lt < hours_between_runs).unwrap_or(false)`. -/
def lead_ok (model : Model) (snd : Sounding) : Bool :=
  (snd.lead_time.map fun lt => decide (lt < model.hours_between_runs)).getD false

/-- The parser thread body: a `Parse` message decodes into soundings
(decoder collaborator = `decode` oracle); the leading run of soundings that
pass `lead_ok` (`take_while`) each become `CliData` when they carry a valid
time and `DataError` otherwise; a decode failure becomes one `DataError`;
other messages pass through. -/
def parser_stage (decode : ℕ → Except String (List Sounding)) :
    DataPopulateMsg → List DataPopulateMsg
  | .parse num site model init_time data =>
    match decode data with
    | Except.error e => [.dataError num site model init_time e]
    | Except.ok soundings =>
      (soundings.takeWhile (lead_ok model)).map fun snd =>
        match snd.valid_time with
        | some vt => .cliData num site model vt snd
        | none => .dataError num site model init_time "No valid time"
  | m => [m]

/-- The cli-stats worker body: each `CliData` sends one derived
`StatsRecord` to the stats writer and one `Location` message downstream;
other messages pass through.  The first component is what goes to the
stats-writer channel, the second what goes downstream. -/
def cli_stats_stage :
    DataPopulateMsg → List StatsRecord × List DataPopulateMsg
  | .cliData num site model valid_time snd =>
    ([create_cli_data site model valid_time snd],
      [.location num site model valid_time snd])
  | m => ([], [m])

/-- The eligibility test of the location thread:
`lead_time().into_option().map(|lt| lt == 0).unwrap_or(true)` — note the
`unwrap_or(true)`: an unknown lead time passes the guard. -/
def location_eligible (snd : Sounding) : Bool :=
  (snd.lead_time.map fun lt => decide (lt = 0)).getD true

/-- The location thread body: an eligible `Location` message either sends a
location `StatsRecord` to the stats writer plus a `PopulateCompleted`
acknowledgment, or a `DataError` when location data is missing; an
ineligible `Location` message produces nothing at all; other messages pass
through to the completion channel. -/
def location_stage :
    DataPopulateMsg → List StatsRecord × List DataPopulateMsg
  | .location num site model valid_time snd =>
    if location_eligible snd then
      match create_location_data site model valid_time snd with
      | Except.ok rec => ([rec], [.populateCompleted num site model])
      | Except.error site' =>
        ([], [.dataError num site' model valid_time "Missing location information"])
    else ([], [])
  | m => ([], [m])

/-- The terminal messages (`PopulateCompleted`/`DataError`) the collector
receives for a batch of enumerated messages.  The threads communicate over
bounded blocking channels; since every stage maps each input message to a
fixed output batch independent of the rest of the stream, the multiset of
messages reaching the collector is independent of interleaving and queue
capacities, so the concurrent pipeline is modelled by sequential stage
composition. -/
def pipeline_terminal (retrieve : ℕ → Model → ℕ → Except String ℕ)
    (decode : ℕ → Except String (List Sounding))
    (msgs : List DataPopulateMsg) : List DataPopulateMsg :=
  ((((msgs.map (load_stage retrieve)).flatMap (parser_stage decode)).flatMap
    fun m => (cli_stats_stage m).2).flatMap fun m => (location_stage m).2)

/-- The derived-statistics records the stats writer receives from the
cli-stats workers for a batch of enumerated messages. -/
def pipeline_cli_stats (retrieve : ℕ → Model → ℕ → Except String ℕ)
    (decode : ℕ → Except String (List Sounding))
    (msgs : List DataPopulateMsg) : List StatsRecord :=
  (((msgs.map (load_stage retrieve)).flatMap (parser_stage decode)).flatMap
    fun m => (cli_stats_stage m).1)

/-- The number of terminal messages one enumerated `Load` actually yields:
one for a failed retrieval or a failed decode, and otherwise one per
retained sounding that either lacks a valid time (its `DataError` passes
through) or passes the location-eligibility guard (lead time zero or
unknown).  Retained soundings with a known non-zero lead time yield no
terminal message. -/
def item_terminal_count (retrieve : ℕ → Model → ℕ → Except String ℕ)
    (decode : ℕ → Except String (List Sounding)) :
    DataPopulateMsg → ℕ
  | .load _ site model init_time =>
    match retrieve site model init_time with
    | Except.error _ => 1
    | Except.ok data =>
      match decode data with
      | Except.error _ => 1
      | Except.ok soundings =>
        ((soundings.takeWhile (lead_ok model)).filter
          fun snd => snd.valid_time.isNone || location_eligible snd).length
  | _ => 0

/-- A run's decoded soundings in the end-to-end scenario of the spec:
8 forecast hours with lead times 0–7, every sounding carrying a valid time,
with location data available. -/
def run_soundings : List Sounding :=
  (List.range 8).map fun (k : ℕ) =>
    { lead_time := some ((k : ℤ))
      valid_time := some (100 + k)
      station_location := some (45, -117)
      station_elevation := some 1000 }

/-- The scenario model: 6 hours between runs. -/
def demo_model : Model := ⟨6⟩

/-- Scenario archive oracle: retrieval always succeeds. -/
def demo_retrieve : ℕ → Model → ℕ → Except String ℕ :=
  fun _ _ init_time => Except.ok init_time

/-- Scenario decoder oracle: every file decodes to the 8-hour run. -/
def demo_decode : ℕ → Except String (List Sounding) :=
  fun _ => Except.ok run_soundings

/-- The scenario's three enumerated init-times for one site. -/
def demo_loads : List DataPopulateMsg :=
  [.load 1 10 demo_model 0, .load 2 10 demo_model 6, .load 3 10 demo_model 12]

/-- A sounding with an unknown lead time but full location data. -/
def unknown_lead_sounding : Sounding :=
  { lead_time := none
    valid_time := some 0
    station_location := some (45, -117)
    station_elevation := some 1000 }

/-- A lead-zero sounding with full location data. -/
def lead_zero_sounding : Sounding :=
  { lead_time := some 0
    valid_time := some 100
    station_location := some (45, -117)
    station_elevation := some 1000 }

/-- A sounding whose lead time already reaches `hours_between_runs` for the
scenario model, so the parser retains nothing from a file starting with it. -/
def overlap_sounding : Sounding :=
  { lead_time := some 6
    valid_time := some 100
    station_location := some (45, -117)
    station_elevation := some 1000 }

/-- The sorted vector built by `CumulativeDistribution::new` is sorted
ascending. -/
theorem new_sorted (data : List F64) :
    ((CumulativeDistribution.new data).sorted_values).Sorted (· ≤ ·) :=
  List.sorted_insertionSort _ _

/-- The sorted vector built by `CumulativeDistribution::new` is a
permutation of the NaN-free input. -/
theorem new_perm (data : List F64) :
    List.Perm (CumulativeDistribution.new data).sorted_values (data.filterMap id) :=
  List.perm_insertionSort _ _

theorem new_length (data : List F64) :
    (CumulativeDistribution.new data).sorted_values.length
      = (data.filterMap id).length :=
  (new_perm data).length_eq

/-- On a distribution that is non-empty (and of physically realizable size)
`value_at_percentile pct` for `pct ≤ 100` returns the sorted element at
index `pct * (n - 1) / 100` — floor division, no wrapping, no panic. -/
theorem value_at_percentile_spec (cd : CumulativeDistribution) (pct : ℕ)
    (hne : cd.sorted_values ≠ []) (hlen : cd.sorted_values.length ≤ 2 ^ 57)
    (hp : pct ≤ 100) :
    cd.value_at_percentile pct =
      Except.ok (cd.sorted_values.getD
        (pct * (cd.sorted_values.length - 1) / 100) negInf) := by
  have hn1 : 1 ≤ cd.sorted_values.length := List.length_pos.mpr hne
  set n := cd.sorted_values.length with hn
  have hU : U64MOD = 18446744073709551616 := by norm_num [U64MOD]
  have h57 : (2 : ℕ) ^ 57 = 144115188075855872 := by norm_num
  have e1 : (n + U64MOD - 1) % U64MOD = n - 1 := by
    have h : n + U64MOD - 1 = (n - 1) + U64MOD := by omega
    rw [h, Nat.add_mod_right, Nat.mod_eq_of_lt (by omega)]
  have e2 : pct * (n - 1) < U64MOD := by
    have : pct * (n - 1) ≤ 100 * (n - 1) := Nat.mul_le_mul_right _ hp
    omega
  have hidx : pct * (n - 1) / 100 < n := by
    have h1 : pct * (n - 1) / 100 ≤ 100 * (n - 1) / 100 :=
      Nat.div_le_div_right (Nat.mul_le_mul_right _ hp)
    have h2 : 100 * (n - 1) / 100 = n - 1 := Nat.mul_div_cancel_left _ (by decide)
    omega
  show (match cd.sorted_values.get? (pct * ((n + U64MOD - 1) % U64MOD) % U64MOD / 100) with
        | some v => Except.ok v
        | none => Except.error "index out of bounds")
      = Except.ok (cd.sorted_values.getD (pct * (n - 1) / 100) negInf)
  rw [e1, Nat.mod_eq_of_lt e2, List.get?_eq_get hidx,
    List.getD_eq_getElem?_getD, List.getElem?_eq_getElem hidx]
  rfl

/-- On a non-empty distribution, `deciles` succeeds and entry `i` of the
resulting ladder is the sorted element at index `10*i*(n-1)/100`. -/
theorem deciles_spec (cd : CumulativeDistribution)
    (hne : cd.sorted_values ≠ []) (hlen : cd.sorted_values.length ≤ 2 ^ 57) :
    cd.deciles = Except.ok ⟨fun i =>
      cd.sorted_values.getD
        (10 * i.val * (cd.sorted_values.length - 1) / 100) negInf⟩ := by
  have h0 := value_at_percentile_spec cd 0 hne hlen (by decide)
  have h1 := value_at_percentile_spec cd 10 hne hlen (by decide)
  have h2 := value_at_percentile_spec cd 20 hne hlen (by decide)
  have h3 := value_at_percentile_spec cd 30 hne hlen (by decide)
  have h4 := value_at_percentile_spec cd 40 hne hlen (by decide)
  have h5 := value_at_percentile_spec cd 50 hne hlen (by decide)
  have h6 := value_at_percentile_spec cd 60 hne hlen (by decide)
  have h7 := value_at_percentile_spec cd 70 hne hlen (by decide)
  have h8 := value_at_percentile_spec cd 80 hne hlen (by decide)
  have h9 := value_at_percentile_spec cd 90 hne hlen (by decide)
  have h10 := value_at_percentile_spec cd 100 hne hlen (by decide)
  unfold CumulativeDistribution.deciles
  rw [h0, h1, h2, h3, h4, h5, h6, h7, h8, h9, h10]
  show Except.ok _ = Except.ok _
  congr 1
  congr 1
  funext i
  fin_cases i <;> rfl

/-- Decile lookup indices stay in bounds on a non-empty sample. -/
theorem decile_index_lt {n pct : ℕ} (hn : 1 ≤ n) (hp : pct ≤ 100) :
    pct * (n - 1) / 100 < n := by
  have h1 : pct * (n - 1) / 100 ≤ 100 * (n - 1) / 100 :=
    Nat.div_le_div_right (Nat.mul_le_mul_right _ hp)
  have h2 : 100 * (n - 1) / 100 = n - 1 := Nat.mul_div_cancel_left _ (by decide)
  omega

theorem getD_eq_get {l : List Fnn} {k : ℕ} (hk : k < l.length) :
    l.getD k negInf = l.get ⟨k, hk⟩ := by
  rw [List.getD_eq_getElem?_getD, List.getElem?_eq_getElem hk]
  rfl

/-- `new` followed by `deciles` lands on the floor-division indices; shared
workhorse behind several claims. -/
theorem new_deciles_spec (data : List F64)
    (hne : data.filterMap id ≠ [])
    (hlen : (data.filterMap id).length ≤ 2 ^ 57) :
    (CumulativeDistribution.new data).deciles = Except.ok ⟨fun i =>
      (CumulativeDistribution.new data).sorted_values.getD
        (10 * i.val * ((CumulativeDistribution.new data).sorted_values.length - 1) / 100)
        negInf⟩ := by
  have hne' : (CumulativeDistribution.new data).sorted_values ≠ [] := by
    intro h
    apply hne
    have hl := new_length data
    rw [h] at hl
    exact List.length_eq_zero.mp hl.symm
  have hlen' : (CumulativeDistribution.new data).sorted_values.length ≤ 2 ^ 57 := by
    rw [new_length]
    exact hlen
  exact deciles_spec _ hne' hlen'

/-- C1, amended: for every sample that is non-empty after NaN removal
(of physically realizable length), `CumulativeDistribution::new` followed by
`deciles()` returns, for target percentile `p = 10*i`, the element of the
ascending-sorted NaN-free sample at index `(p * (n - 1)) / 100` — floor
(truncating integer) division, not round-to-nearest. -/
theorem c1_deciles_floor_index (data : List F64)
    (hne : data.filterMap id ≠ [])
    (hlen : (data.filterMap id).length ≤ 2 ^ 57) :
    (CumulativeDistribution.new data).deciles = Except.ok ⟨fun i =>
      (CumulativeDistribution.new data).sorted_values.getD
        (10 * i.val * ((CumulativeDistribution.new data).sorted_values.length - 1) / 100)
        negInf⟩ :=
  new_deciles_spec data hne hlen

/-- Witness for `c1_deciles_floor_index` at the concrete sample
`[2.0, NaN, 7.0]`. -/
theorem c1_deciles_floor_index_witness :
    ([some (fv 2), none, some (fv 7)].filterMap id ≠ []
        ∧ ([some (fv 2), none, some (fv 7)].filterMap (id : F64 → F64)).length ≤ 2 ^ 57)
      ∧ (CumulativeDistribution.new [some (fv 2), none, some (fv 7)]).deciles
          = Except.ok ⟨fun i =>
            (CumulativeDistribution.new [some (fv 2), none, some (fv 7)]).sorted_values.getD
              (10 * i.val *
                ((CumulativeDistribution.new
                  [some (fv 2), none, some (fv 7)]).sorted_values.length - 1) / 100)
              negInf⟩ :=
  ⟨⟨by decide, by decide⟩,
    c1_deciles_floor_index [some (fv 2), none, some (fv 7)] (by decide) (by decide)⟩

/-- Counterexample to C1 as frozen: on the sample `[0, 1, 2, 3]` (`n = 4`)
the code's decile at `p = 30` (ladder entry 3) is the sorted element at
floor index `(3 * 30) / 100 = 0`, i.e. the value `0`, whereas the claimed
formula `round((n - 1) * p / 100) = round(0.9) = 1` selects the element `1`. -/
theorem c1_round_counterexample :
    ((CumulativeDistribution.new
        [some (fv 0), some (fv 1), some (fv 2), some (fv 3)]).deciles).toOption.map
        (fun d => d.deciles 3) = some (fv 0)
      ∧ round (((4 - 1) * 30 : ℚ) / 100) = 1
      ∧ (CumulativeDistribution.new
          [some (fv 0), some (fv 1), some (fv 2), some (fv 3)]).sorted_values.getD 1 negInf
          = fv 1
      ∧ fv 0 ≠ fv 1 :=
  ⟨rfl, by norm_num [round_eq], rfl, by decide⟩

/-- C2: on every sample that is non-empty after NaN removal, the 11 decile
values are non-decreasing by index, entry 0 is the minimum of the NaN-free
sample and entry 10 is its maximum (minimum and maximum stated by
membership plus the two-sided bounds). -/
theorem c2_deciles_monotone_min_max (data : List F64)
    (hne : data.filterMap id ≠ [])
    (hlen : (data.filterMap id).length ≤ 2 ^ 57) :
    ∃ d, (CumulativeDistribution.new data).deciles = Except.ok d
      ∧ (∀ i j : Fin 11, i ≤ j → d.deciles i ≤ d.deciles j)
      ∧ d.deciles 0 ∈ data.filterMap id
      ∧ (∀ x ∈ data.filterMap id, d.deciles 0 ≤ x)
      ∧ d.deciles 10 ∈ data.filterMap id
      ∧ (∀ x ∈ data.filterMap id, x ≤ d.deciles 10) := by
  have hsorted := new_sorted data
  have hperm := new_perm data
  have hne' : (CumulativeDistribution.new data).sorted_values ≠ [] := by
    intro h
    apply hne
    have hl := new_length data
    rw [h] at hl
    exact List.length_eq_zero.mp hl.symm
  have hn1 : 1 ≤ (CumulativeDistribution.new data).sorted_values.length :=
    List.length_pos.mpr hne'
  set l := (CumulativeDistribution.new data).sorted_values with hldef
  set n := l.length with hndef
  refine ⟨_, new_deciles_spec data hne hlen, ?_, ?_, ?_, ?_, ?_⟩
  · -- monotone
    intro i j hij
    have hi : 10 * i.val * (n - 1) / 100 < n :=
      decile_index_lt hn1 (by omega)
    have hj : 10 * j.val * (n - 1) / 100 < n :=
      decile_index_lt hn1 (by omega)
    show l.getD _ negInf ≤ l.getD _ negInf
    rw [getD_eq_get hi, getD_eq_get hj]
    refine hsorted.rel_get_of_le ?_
    have : 10 * i.val * (n - 1) ≤ 10 * j.val * (n - 1) :=
      Nat.mul_le_mul_right _ (Nat.mul_le_mul_left _ hij)
    exact Fin.mk_le_mk.mpr (Nat.div_le_div_right this)
  · -- minimum membership
    have h0 : (0 : ℕ) < n := hn1
    show l.getD (10 * (0 : Fin 11).val * (n - 1) / 100) negInf ∈ data.filterMap id
    have : 10 * (0 : Fin 11).val * (n - 1) / 100 = 0 := by norm_num
    rw [this, getD_eq_get h0]
    exact hperm.subset (l.get_mem _ _)
  · -- minimum lower bound
    intro x hx
    have hxl : x ∈ l := hperm.mem_iff.mpr hx
    obtain ⟨k, hk⟩ := List.mem_iff_get.mp hxl
    have h0 : (0 : ℕ) < n := hn1
    show l.getD (10 * (0 : Fin 11).val * (n - 1) / 100) negInf ≤ x
    have hz : 10 * (0 : Fin 11).val * (n - 1) / 100 = 0 := by norm_num
    rw [hz, getD_eq_get h0, ← hk]
    exact hsorted.rel_get_of_le (Fin.mk_le_mk.mpr (Nat.zero_le _))
  · -- maximum membership
    have hml : n - 1 < n := by omega
    show l.getD (10 * (10 : Fin 11).val * (n - 1) / 100) negInf ∈ data.filterMap id
    have : 10 * (10 : Fin 11).val * (n - 1) / 100 = n - 1 := by
      show 10 * 10 * (n - 1) / 100 = n - 1
      exact Nat.mul_div_cancel_left _ (by decide)
    rw [this, getD_eq_get hml]
    exact hperm.subset (l.get_mem _ _)
  · -- maximum upper bound
    intro x hx
    have hxl : x ∈ l := hperm.mem_iff.mpr hx
    obtain ⟨k, hk⟩ := List.mem_iff_get.mp hxl
    have hml : n - 1 < n := by omega
    show x ≤ l.getD (10 * (10 : Fin 11).val * (n - 1) / 100) negInf
    have hz : 10 * (10 : Fin 11).val * (n - 1) / 100 = n - 1 := by
      show 10 * 10 * (n - 1) / 100 = n - 1
      exact Nat.mul_div_cancel_left _ (by decide)
    rw [hz, getD_eq_get hml, ← hk]
    refine hsorted.rel_get_of_le (Fin.mk_le_mk.mpr ?_)
    have := k.isLt
    omega

/-- Witness for `c2_deciles_monotone_min_max` at the concrete sample
`[3.0, NaN, 1.0, 2.0]`. -/
theorem c2_deciles_monotone_min_max_witness :
    ([some (fv 3), none, some (fv 1), some (fv 2)].filterMap id ≠ []
        ∧ ([some (fv 3), none, some (fv 1), some (fv 2)].filterMap
            (id : F64 → F64)).length ≤ 2 ^ 57)
      ∧ ∃ d, (CumulativeDistribution.new
            [some (fv 3), none, some (fv 1), some (fv 2)]).deciles = Except.ok d
          ∧ (∀ i j : Fin 11, i ≤ j → d.deciles i ≤ d.deciles j)
          ∧ d.deciles 0 ∈ [some (fv 3), none, some (fv 1), some (fv 2)].filterMap id
          ∧ (∀ x ∈ [some (fv 3), none, some (fv 1), some (fv 2)].filterMap id,
              d.deciles 0 ≤ x)
          ∧ d.deciles 10 ∈ [some (fv 3), none, some (fv 1), some (fv 2)].filterMap id
          ∧ (∀ x ∈ [some (fv 3), none, some (fv 1), some (fv 2)].filterMap id,
              x ≤ d.deciles 10) :=
  ⟨⟨by decide, by decide⟩,
    c2_deciles_monotone_min_max [some (fv 3), none, some (fv 1), some (fv 2)]
      (by decide) (by decide)⟩

/-- C9, amended: on a sample that is empty after NaN removal, the decile
computation does not produce a `Deciles` value — it panics with an
out-of-bounds index (the `Except.error` branch models the panic); it does
not return a graceful "absent" result. -/
theorem c9_empty_sample_panics (data : List F64)
    (h : data.filterMap id = []) :
    (CumulativeDistribution.new data).deciles
      = Except.error "index out of bounds" := by
  have hnew : CumulativeDistribution.new data = ⟨[]⟩ := by
    simp [CumulativeDistribution.new, h]
  rw [hnew]
  rfl

/-- Witness for `c9_empty_sample_panics` on the all-NaN sample `[NaN]`. -/
theorem c9_empty_sample_panics_witness :
    ([(none : F64)].filterMap id = [])
      ∧ (CumulativeDistribution.new [(none : F64)]).deciles
          = Except.error "index out of bounds" :=
  ⟨by decide, c9_empty_sample_panics [none] (by decide)⟩

/-- Counterexample to C9 as frozen: on the empty sample the code does not
return an absent result — evaluating the embedded `deciles` (which models
panics as `Except.error`) hits the out-of-bounds panic in
`value_at_percentile`, because `sorted_values[0]` is indexed on an empty
vector after `len - 1` wraps. -/
theorem c9_counterexample :
    (CumulativeDistribution.new ([] : List F64)).deciles
      = Except.error "index out of bounds" := rfl

/-- C4: the circular window scenarios.  The wrap-around window of
January 3 ± 7 days behaves exactly as specified (accepts Dec 27 – Jan 10,
rejects Dec 26 and Jan 11, and rejects unrelated months), and the June 15
window accepts June 8 – June 22 and rejects June 7 and June 23 — but the
final conjunct exhibits the code bug: the equal-month branch of
`make_window_func` never tests the month, so May 15 (indeed day 8–22 of
any month) is accepted by the June window, contradicting both the spec and
the month checks the other two branches perform. -/
theorem c4_circular_window_code_bug :
    ([(12, 27), (12, 28), (12, 29), (12, 30), (12, 31), (1, 1), (1, 2), (1, 3),
        (1, 4), (1, 5), (1, 6), (1, 7), (1, 8), (1, 9), (1, 10)].all
        (in_window 3) = true)
      ∧ in_window 3 (12, 26) = false
      ∧ in_window 3 (1, 11) = false
      ∧ in_window 3 (6, 15) = false
      ∧ (((List.range 15).map fun k => (6, 8 + k)).all (in_window 166) = true)
      ∧ in_window 166 (6, 7) = false
      ∧ in_window 166 (6, 23) = false
      ∧ in_window 166 (5, 15) = true := by
  decide

/-- C8: the failing inputs.  On the sorted two-element sample `[0, 1]` the
query `2.0` binary-searches to insertion index 2 and the scaled result is
`(2 * 100) / (2 - 1) = 200`, which `percentile_of_value` returns as a
`Percentile` even though `Percentile`'s own documentation requires
`0 ≤ p ≤ 100`; and on the singleton sample `[5]` the query `7.0` panics
with a division by zero (`len - 1 = 0`). -/
theorem c8_percentile_of_value_violations :
    (CumulativeDistribution.new [some (fv 0), some (fv 1)]).percentile_of_value
        (some (fv 2)) = Except.ok 200
      ∧ ¬ 200 ≤ 100
      ∧ (CumulativeDistribution.new [some (fv 5)]).percentile_of_value (some (fv 7))
          = Except.error "attempt to divide by zero" :=
  ⟨rfl, by decide, rfl⟩

theorem nat_to_le_bytes_length (k x : ℕ) : (nat_to_le_bytes k x).length = k := by
  induction k generalizing x with
  | zero => rfl
  | succ k ih => simp [nat_to_le_bytes, ih]

/-- A `k`-byte little-endian round trip is exact below `256 ^ k`. -/
theorem nat_le_bytes_round_trip (k : ℕ) : ∀ x : ℕ, x < 256 ^ k →
    nat_from_le_bytes (nat_to_le_bytes k x) = x := by
  induction k with
  | zero =>
    intro x hx
    interval_cases x
    rfl
  | succ k ih =>
    intro x hx
    have hx' : x / 256 < 256 ^ k := by
      rw [Nat.div_lt_iff_lt_mul (by norm_num)]
      calc x < 256 ^ (k + 1) := hx
        _ = 256 ^ k * 256 := by ring
    show x % 256 + 256 * nat_from_le_bytes (nat_to_le_bytes k (x / 256)) = x
    rw [ih _ hx']
    omega

theorem read_after_write : ∀ l : List ℕ, (∀ x ∈ l, x < 2 ^ 64) →
    read_u64s l.length (as_bytes l) = Except.ok l := by
  intro l
  induction l with
  | nil => intro _; rfl
  | cons a t ih =>
    intro hw
    have h8 : (nat_to_le_bytes 8 a).length = 8 := nat_to_le_bytes_length 8 a
    have hflat : as_bytes (a :: t) = nat_to_le_bytes 8 a ++ as_bytes t := by
      simp [as_bytes]
    have hlen : (as_bytes (a :: t)).length = 8 + (as_bytes t).length := by
      rw [hflat, List.length_append, h8]
    have htake : (as_bytes (a :: t)).take 8 = nat_to_le_bytes 8 a := by
      rw [hflat, ← h8]
      exact List.take_left _ _
    have hdrop : (as_bytes (a :: t)).drop 8 = as_bytes t := by
      rw [hflat, ← h8]
      exact List.drop_left _ _
    show read_u64s (t.length + 1) (as_bytes (a :: t)) = Except.ok (a :: t)
    unfold read_u64s
    rw [if_neg (by omega), hdrop, ih (fun x hx => hw x (List.mem_cons_of_mem a hx)),
      htake, nat_le_bytes_round_trip 8 a (by exact hw a (List.mem_cons_self a t))]

/-- C10: serializing the 11 raw doubles of a `DecileSet` with
`Deciles::as_bytes` and deserializing the blob with `Deciles::from_reader`
reproduces the 11 bit patterns exactly. -/
theorem c10_deciles_blob_round_trip (bits : List ℕ) (h11 : bits.length = 11)
    (hw : ∀ x ∈ bits, x < 2 ^ 64) :
    from_reader (as_bytes bits) = Except.ok bits := by
  unfold from_reader
  rw [← h11]
  exact read_after_write bits hw

/-- Witness for `c10_deciles_blob_round_trip` on 11 concrete bit patterns,
among them `0x7FF8000000000000` (a NaN) and `2^64 - 1`. -/
theorem c10_deciles_blob_round_trip_witness :
    (([0, 1, 2, 3, 4, 5, 6, 9218868437227405312, 9221120237041090560,
        13830554455654793216, 18446744073709551615] : List ℕ).length = 11
      ∧ ∀ x ∈ ([0, 1, 2, 3, 4, 5, 6, 9218868437227405312, 9221120237041090560,
          13830554455654793216, 18446744073709551615] : List ℕ), x < 2 ^ 64)
      ∧ from_reader (as_bytes [0, 1, 2, 3, 4, 5, 6, 9218868437227405312,
          9221120237041090560, 13830554455654793216, 18446744073709551615])
        = Except.ok [0, 1, 2, 3, 4, 5, 6, 9218868437227405312,
          9221120237041090560, 13830554455654793216, 18446744073709551615] :=
  ⟨⟨by decide, by decide⟩,
    c10_deciles_blob_round_trip _ (by decide) (by decide)⟩

theorem list_getD_eq_get {α : Type} (d : α) {l : List α} {k : ℕ}
    (hk : k < l.length) : l.getD k d = l.get ⟨k, hk⟩ := by
  rw [List.getD_eq_getElem?_getD, List.getElem?_eq_getElem hk]
  rfl

/-- C5: `load_all_data` remaps every row whose blow-up height is below the
fixed 1000 m minimum to `dt = +inf`, `blow_up_meters = -inf` (first
conjunct, row by row); and when an entire sample lies below the minimum,
the decile set computed over its remapped blow-up heights is eleven times
`-inf` (second conjunct). -/
theorem c5_degenerate_remap (rows : List DataRow)
    (hne : rows ≠ []) (hlen : rows.length ≤ 2 ^ 57) :
    (∀ (i : ℕ) (hi : i < rows.length),
        F64.lt (rows.get ⟨i, hi⟩).blow_up_meters (some (fv 1000)) = true →
        (load_remap rows).getD i default
          = { rows.get ⟨i, hi⟩ with
              dt := some posInf, blow_up_meters := some negInf })
      ∧ ((∀ r ∈ rows, F64.lt r.blow_up_meters (some (fv 1000)) = true) →
          ∃ d, (CumulativeDistribution.new
                ((load_remap rows).map fun r => r.blow_up_meters)).deciles
              = Except.ok d
            ∧ ∀ i : Fin 11, d.deciles i = negInf) := by
  constructor
  · intro i hi hbelow
    have hi' : i < (load_remap rows).length := by
      simpa [load_remap] using hi
    rw [list_getD_eq_get default hi']
    simp only [load_remap, List.get_eq_getElem, List.getElem_map]
    rw [List.get_eq_getElem] at hbelow
    rw [if_pos hbelow]
  · intro hall
    have hms_all : ∀ x ∈ (load_remap rows).map (fun r => r.blow_up_meters),
        x = some negInf := by
      intro x hx
      obtain ⟨r, hr, rfl⟩ := List.mem_map.mp hx
      simp only [load_remap, List.mem_map] at hr
      obtain ⟨r₀, hr₀, rfl⟩ := hr
      rw [if_pos (hall r₀ hr₀)]
    have hfil : ∀ x ∈ ((load_remap rows).map
        (fun r => r.blow_up_meters)).filterMap id, x = negInf := by
      intro x hx
      obtain ⟨a, ha, hax⟩ := List.mem_filterMap.mp hx
      rw [hms_all a ha] at hax
      exact (Option.some_injective _ hax.symm).symm ▸ rfl
    have hne_f : ((load_remap rows).map
        (fun r => r.blow_up_meters)).filterMap id ≠ [] := by
      obtain ⟨r, hr⟩ := List.exists_mem_of_ne_nil rows hne
      have h1 : (if F64.lt r.blow_up_meters (some (fv 1000)) then
          { r with dt := some posInf, blow_up_meters := some negInf }
          else r) ∈ load_remap rows := List.mem_map_of_mem _ hr
      have h2 : some negInf ∈ (load_remap rows).map (fun r => r.blow_up_meters) := by
        have := List.mem_map_of_mem (fun r : DataRow => r.blow_up_meters) h1
        rwa [hms_all _ this] at this
      exact List.ne_nil_of_mem (List.mem_filterMap.mpr ⟨some negInf, h2, rfl⟩)
    have hlen_f : (((load_remap rows).map
        (fun r => r.blow_up_meters)).filterMap id).length ≤ 2 ^ 57 := by
      have h1 := List.length_filterMap_le id
        ((load_remap rows).map fun r => r.blow_up_meters)
      have h2 : ((load_remap rows).map (fun r => r.blow_up_meters)).length
          = rows.length := by simp [load_remap]
      omega
    refine ⟨_, new_deciles_spec _ hne_f hlen_f, ?_⟩
    intro i
    set cd := CumulativeDistribution.new
      ((load_remap rows).map fun r => r.blow_up_meters) with hcd
    have hn1 : 1 ≤ cd.sorted_values.length := by
      rw [hcd, new_length]
      exact List.length_pos.mpr hne_f
    have hidx : 10 * i.val * (cd.sorted_values.length - 1) / 100
        < cd.sorted_values.length := by
      refine decile_index_lt hn1 ?_
      have := i.isLt
      omega
    show cd.sorted_values.getD _ negInf = negInf
    rw [getD_eq_get hidx]
    have hmem : cd.sorted_values.get
        ⟨10 * i.val * (cd.sorted_values.length - 1) / 100, hidx⟩
          ∈ cd.sorted_values :=
      cd.sorted_values.get_mem _ _
    exact hfil _ ((new_perm _).subset hmem)

/-- Witness for `c5_degenerate_remap` on a single row with a 500 m blow-up
height. -/
theorem c5_degenerate_remap_witness :
    (([⟨0, some (fv 1), some (fv 2), some (fv 500), some (fv 3)⟩] : List DataRow) ≠ []
        ∧ ([⟨0, some (fv 1), some (fv 2), some (fv 500), some (fv 3)⟩] : List DataRow).length
            ≤ 2 ^ 57)
      ∧ ((∀ (i : ℕ)
            (hi : i < ([⟨0, some (fv 1), some (fv 2), some (fv 500), some (fv 3)⟩] :
              List DataRow).length),
            F64.lt (([⟨0, some (fv 1), some (fv 2), some (fv 500), some (fv 3)⟩] :
                List DataRow).get ⟨i, hi⟩).blow_up_meters (some (fv 1000)) = true →
            (load_remap [⟨0, some (fv 1), some (fv 2), some (fv 500), some (fv 3)⟩]).getD i
                default
              = { ([⟨0, some (fv 1), some (fv 2), some (fv 500), some (fv 3)⟩] :
                  List DataRow).get ⟨i, hi⟩ with
                  dt := some posInf, blow_up_meters := some negInf })
          ∧ ((∀ r ∈ ([⟨0, some (fv 1), some (fv 2), some (fv 500), some (fv 3)⟩] :
              List DataRow), F64.lt r.blow_up_meters (some (fv 1000)) = true) →
              ∃ d, (CumulativeDistribution.new
                    ((load_remap [⟨0, some (fv 1), some (fv 2), some (fv 500), some (fv 3)⟩]).map
                      fun r => r.blow_up_meters)).deciles
                  = Except.ok d
                ∧ ∀ i : Fin 11, d.deciles i = negInf)) :=
  ⟨⟨by decide, by decide⟩,
    c5_degenerate_remap [⟨0, some (fv 1), some (fv 2), some (fv 500), some (fv 3)⟩]
      (by decide) (by decide)⟩

/-- The element right after `takeWhile`'s result fails the predicate. -/
theorem takeWhile_stop {α : Type} (p : α → Bool) :
    ∀ (l : List α) (x : α), l.get? (l.takeWhile p).length = some x →
      p x = false := by
  intro l
  induction l with
  | nil =>
    intro x hx
    simp at hx
  | cons a t ih =>
    intro x hx
    by_cases hp : p a = true
    · rw [List.takeWhile_cons_of_pos hp, List.length_cons,
        List.get?_cons_succ] at hx
      exact ih x hx
    · rw [List.takeWhile_cons_of_neg hp] at hx
      simp only [List.length_nil, List.get?_cons_zero, Option.some_inj] at hx
      subst hx
      simpa using hp

/-- C6: for a successfully decoded file, the parser stage processes
exactly the leading soundings whose lead time is below the model's
`hours_between_runs`: the processed list `kept` is an initial segment of
the decoded soundings, every kept sounding passes the lead-time test, the
first unkept sounding (if any) fails it, and the stage output is one
message per kept sounding (`CliData` when it has a valid time).  The two
closed conjuncts check the spec scenario: with 8 forecast hours and 6
hours between runs, 6 soundings per run are retained and the 3-run batch
sends exactly 18 derived `StatsRecord`s to the stats writer. -/
theorem c6_parser_retains_leading_soundings :
    (∀ (decode : ℕ → Except String (List Sounding))
      (num site init_time data : ℕ) (model : Model) (ss : List Sounding),
      decode data = Except.ok ss →
      ∃ kept : List Sounding,
        (∃ rest, kept ++ rest = ss)
        ∧ (∀ snd ∈ kept, lead_ok model snd = true)
        ∧ (∀ snd, ss.get? kept.length = some snd → lead_ok model snd = false)
        ∧ parser_stage decode (.parse num site model init_time data)
            = kept.map fun snd =>
                match snd.valid_time with
                | some vt => DataPopulateMsg.cliData num site model vt snd
                | none => DataPopulateMsg.dataError num site model init_time
                    "No valid time")
      ∧ (run_soundings.takeWhile (lead_ok demo_model)).length = 6
      ∧ (pipeline_cli_stats demo_retrieve demo_decode demo_loads).length = 18 := by
  refine ⟨?_, rfl, rfl⟩
  intro decode num site init_time data model ss hdec
  refine ⟨ss.takeWhile (lead_ok model),
    ⟨ss.dropWhile (lead_ok model), List.takeWhile_append_dropWhile _ _⟩,
    ?_, takeWhile_stop _ ss, ?_⟩
  · intro snd h
    exact List.mem_takeWhile_imp h
  · simp [parser_stage, hdec]

/-- Witness for `c6_parser_retains_leading_soundings` at the scenario
decoder and one run. -/
theorem c6_parser_retains_leading_soundings_witness :
    demo_decode 0 = Except.ok run_soundings
      ∧ ∃ kept : List Sounding,
          (∃ rest, kept ++ rest = run_soundings)
          ∧ (∀ snd ∈ kept, lead_ok demo_model snd = true)
          ∧ (∀ snd, run_soundings.get? kept.length = some snd →
              lead_ok demo_model snd = false)
          ∧ parser_stage demo_decode (.parse 1 10 demo_model 0 0)
              = kept.map fun snd =>
                  match snd.valid_time with
                  | some vt => DataPopulateMsg.cliData 1 10 demo_model vt snd
                  | none => DataPopulateMsg.dataError 1 10 demo_model 0
                      "No valid time" :=
  ⟨rfl, c6_parser_retains_leading_soundings.1 demo_decode 1 10 0 0 demo_model
    run_soundings rfl⟩

/-- The location-eligibility guard passes exactly the lead-zero and
unknown-lead soundings (the `unwrap_or(true)` default). -/
theorem location_eligible_iff (snd : Sounding) :
    location_eligible snd = true
      ↔ (snd.lead_time = some 0 ∨ snd.lead_time = none) := by
  cases h : snd.lead_time with
  | none => simp [location_eligible, h]
  | some lt => simp [location_eligible, h]

/-- C7, amended: a location record reaches the statistics writer from the
location stage only for a `Location` message whose sounding has lead time
zero **or an unknown lead time** (the guard is
`map(|lt| lt == 0).unwrap_or(true)`); a known non-zero lead time never
produces a location upsert. -/
theorem c7_location_upsert_guard (m : DataPopulateMsg) (rec : StatsRecord)
    (hrec : rec ∈ (location_stage m).1) :
    ∃ num site model vt snd, m = .location num site model vt snd
      ∧ (snd.lead_time = some 0 ∨ snd.lead_time = none)
      ∧ create_location_data site model vt snd = Except.ok rec := by
  cases m with
  | location num site model vt snd =>
    refine ⟨num, site, model, vt, snd, rfl, ?_⟩
    by_cases he : location_eligible snd = true
    · rw [location_stage] at hrec
      rw [if_pos he] at hrec
      cases hc : create_location_data site model vt snd with
      | ok r =>
        rw [hc] at hrec
        simp only [List.mem_singleton] at hrec
        subst hrec
        exact ⟨(location_eligible_iff snd).mp he, rfl⟩
      | error s =>
        rw [hc] at hrec
        simp at hrec
    · rw [location_stage] at hrec
      rw [if_neg he] at hrec
      simp at hrec
  | load num site model init_time => simp [location_stage] at hrec
  | parse num site model init_time data => simp [location_stage] at hrec
  | cliData num site model vt snd => simp [location_stage] at hrec
  | populateCompleted num site model => simp [location_stage] at hrec
  | dataError num site model vt msg => simp [location_stage] at hrec

/-- Witness for `c7_location_upsert_guard` at a lead-zero sounding. -/
theorem c7_location_upsert_guard_witness :
    (StatsRecord.location 10 demo_model 100 45 (-117) 1000
        ∈ (location_stage (.location 1 10 demo_model 100 lead_zero_sounding)).1)
      ∧ ∃ num site model vt snd,
          DataPopulateMsg.location 1 10 demo_model 100 lead_zero_sounding
            = .location num site model vt snd
          ∧ (snd.lead_time = some 0 ∨ snd.lead_time = none)
          ∧ create_location_data site model vt snd
              = Except.ok (StatsRecord.location 10 demo_model 100 45 (-117) 1000) :=
  ⟨by decide,
    c7_location_upsert_guard (.location 1 10 demo_model 100 lead_zero_sounding)
      (StatsRecord.location 10 demo_model 100 45 (-117) 1000) (by decide)⟩

/-- Counterexample to C7 as frozen: a `Location` message whose sounding has
an **unknown** lead time does produce a location upsert — the stage sends
one location record to the statistics writer even though the lead time is
not zero. -/
theorem c7_unknown_lead_counterexample :
    ((location_stage (.location 1 10 demo_model 0 unknown_lead_sounding)).1).length = 1
      ∧ unknown_lead_sounding.lead_time ≠ some 0 :=
  ⟨rfl, by decide⟩

/-- Per-item terminal accounting after the parser: a batch of per-sounding
messages contributes one terminal message per sounding that lacks a valid
time or passes the location-eligibility guard. -/
theorem soundings_terminal_len (num site : ℕ) (model : Model) (init_time : ℕ) :
    ∀ ss : List Sounding,
      (((ss.map fun snd =>
          match snd.valid_time with
          | some vt => DataPopulateMsg.cliData num site model vt snd
          | none => DataPopulateMsg.dataError num site model init_time
              "No valid time").flatMap
            fun m => (cli_stats_stage m).2).flatMap
              fun m => (location_stage m).2).length
        = (ss.filter fun snd =>
            snd.valid_time.isNone || location_eligible snd).length := by
  intro ss
  induction ss with
  | nil => rfl
  | cons snd t ih =>
    have hhead : (((cli_stats_stage
        (match snd.valid_time with
          | some vt => DataPopulateMsg.cliData num site model vt snd
          | none => DataPopulateMsg.dataError num site model init_time
              "No valid time")).2).flatMap fun m => (location_stage m).2).length
        = if snd.valid_time.isNone || location_eligible snd then 1 else 0 := by
      cases hvt : snd.valid_time with
      | none => simp [cli_stats_stage, location_stage]
      | some vt =>
        by_cases he : location_eligible snd = true
        · cases hc : create_location_data site model vt snd with
          | ok r => simp [cli_stats_stage, location_stage, he, hc]
          | error s => simp [cli_stats_stage, location_stage, he, hc]
        · simp [cli_stats_stage, location_stage, he]
    have hsplit : ((((snd :: t).map fun snd =>
        match snd.valid_time with
        | some vt => DataPopulateMsg.cliData num site model vt snd
        | none => DataPopulateMsg.dataError num site model init_time
            "No valid time").flatMap
          fun m => (cli_stats_stage m).2).flatMap
            fun m => (location_stage m).2).length
        = (((cli_stats_stage
            (match snd.valid_time with
              | some vt => DataPopulateMsg.cliData num site model vt snd
              | none => DataPopulateMsg.dataError num site model init_time
                  "No valid time")).2).flatMap fun m => (location_stage m).2).length
          + (((t.map fun snd =>
              match snd.valid_time with
              | some vt => DataPopulateMsg.cliData num site model vt snd
              | none => DataPopulateMsg.dataError num site model init_time
                  "No valid time").flatMap
                fun m => (cli_stats_stage m).2).flatMap
                  fun m => (location_stage m).2).length := by
      rw [List.map_cons, List.flatMap_cons, List.flatMap_append,
        List.length_append]
    rw [hsplit, hhead, ih, List.filter_cons]
    by_cases hp : (snd.valid_time.isNone || location_eligible snd) = true
    · simp only [hp, if_true, List.length_cons]
      omega
    · rw [Bool.not_eq_true] at hp
      simp [hp]

/-- C3, amended: the number of terminal (`Completed` + `DataError`)
messages the collector receives equals the **sum over enumerated `Load`
items** of that item's terminal count: 1 when retrieval or decoding fails,
otherwise one per retained sounding that lacks a valid time or has
lead time zero/unknown.  This sum need not equal the number of `Load`
messages: an item whose retained soundings contain no such sounding is
lost, and an item with several contributes several. -/
theorem c3_terminal_accounting (retrieve : ℕ → Model → ℕ → Except String ℕ)
    (decode : ℕ → Except String (List Sounding))
    (msgs : List DataPopulateMsg)
    (hload : ∀ m ∈ msgs, ∃ num site model init_time,
      m = DataPopulateMsg.load num site model init_time) :
    (pipeline_terminal retrieve decode msgs).length
      = (msgs.map (item_terminal_count retrieve decode)).sum := by
  induction msgs with
  | nil => rfl
  | cons m t ih =>
    obtain ⟨num, site, model, init_time, rfl⟩ :=
      hload m (List.mem_cons_self m t)
    have ht := ih fun x hx => hload x (List.mem_cons_of_mem _ hx)
    have hsplit : (pipeline_terminal retrieve decode
        (DataPopulateMsg.load num site model init_time :: t)).length
        = (((parser_stage decode
            (load_stage retrieve (.load num site model init_time))).flatMap
              fun m => (cli_stats_stage m).2).flatMap
                fun m => (location_stage m).2).length
          + (pipeline_terminal retrieve decode t).length := by
      rw [pipeline_terminal, pipeline_terminal, List.map_cons,
        List.flatMap_cons, List.flatMap_append, List.flatMap_append,
        List.length_append]
    rw [hsplit, ht, List.map_cons, List.sum_cons]
    congr 1
    cases hr : retrieve site model init_time with
    | error e =>
      have h1 : load_stage retrieve (.load num site model init_time)
          = .dataError num site model init_time e := by
        simp [load_stage, hr]
      rw [h1]
      simp [parser_stage, cli_stats_stage, location_stage,
        item_terminal_count, hr]
    | ok data =>
      have h1 : load_stage retrieve (.load num site model init_time)
          = .parse num site model init_time data := by
        simp [load_stage, hr]
      rw [h1]
      cases hd : decode data with
      | error e =>
        simp [parser_stage, cli_stats_stage, location_stage,
          item_terminal_count, hr, hd]
      | ok ss =>
        have h2 : parser_stage decode (.parse num site model init_time data)
            = (ss.takeWhile (lead_ok model)).map fun snd =>
                match snd.valid_time with
                | some vt => DataPopulateMsg.cliData num site model vt snd
                | none => DataPopulateMsg.dataError num site model init_time
                    "No valid time" := by
          simp [parser_stage, hd]
        have h3 : item_terminal_count retrieve decode
            (.load num site model init_time)
            = ((ss.takeWhile (lead_ok model)).filter fun snd =>
                snd.valid_time.isNone || location_eligible snd).length := by
          simp [item_terminal_count, hr, hd]
        rw [h2, h3]
        exact soundings_terminal_len num site model init_time
          (ss.takeWhile (lead_ok model))

/-- Witness for `c3_terminal_accounting` on the three-run scenario batch. -/
theorem c3_terminal_accounting_witness :
    (∀ m ∈ demo_loads, ∃ num site model init_time,
        m = DataPopulateMsg.load num site model init_time)
      ∧ (pipeline_terminal demo_retrieve demo_decode demo_loads).length
          = (demo_loads.map (item_terminal_count demo_retrieve demo_decode)).sum := by
  have hl : ∀ m ∈ demo_loads, ∃ num site model init_time,
      m = DataPopulateMsg.load num site model init_time := by
    intro m hm
    simp only [demo_loads, List.mem_cons, List.not_mem_nil, or_false] at hm
    rcases hm with rfl | rfl | rfl
    · exact ⟨1, 10, demo_model, 0, rfl⟩
    · exact ⟨2, 10, demo_model, 6, rfl⟩
    · exact ⟨3, 10, demo_model, 12, rfl⟩
  exact ⟨hl, c3_terminal_accounting demo_retrieve demo_decode demo_loads hl⟩

/-- Counterexample to C3 as frozen: a single `Load` whose file decodes to
one sounding with lead time 6 (= `hours_between_runs`) yields **zero**
terminal messages — `take_while` retains nothing, so the item is lost and
`Completed + DataError = 0 ≠ 1 = Load count`. -/
theorem c3_lost_item_counterexample :
    (pipeline_terminal (fun _ _ _ => Except.ok 0)
        (fun _ => Except.ok [overlap_sounding])
        [.load 1 10 demo_model 0]).length = 0
      ∧ ([DataPopulateMsg.load 1 10 demo_model 0].length = 1) :=
  ⟨rfl, rfl⟩

end Bufcli
